/-
Verification of the duplicate-detection-and-resolution engine of
johnsturgeon/plex-tools (deduplex.py and models/gd_plex_track.py,
models/gd_duplicate_set.py), as a shallow embedding in Lean 4.

The two near-duplicate implementations (`JHSTrack`/`JHSDuplicateSet` in
deduplex.py and `GDPlexTrack`/`GDDuplicateSet` in models/) agree on every
behavior relevant here; the embedding uses the `GD` names.  Differences are
noted where they occur (`star_rating` uses `int(r // 2)` in the GD model and
`int(r / 2)` in deduplex; both equal the floor for the non-negative ratings
the API produces, and the embedding uses the floor).

Python floats carrying ratings are modelled as rationals; Python `str`
as `String`; Python `None` as `Option.none`.  A Python statement that can
raise (an out-of-range list subscript) is modelled as returning `Option`,
with `none` standing for the raised `IndexError`.
-/
import Mathlib

set_option autoImplicit false

namespace PlexTools

/-- Raw track data handed to the constructors by the remote-catalog client
(`plexapi.audio.Track` plus the media/part attributes the code reads).
`grandparentTitle` is the artist, `parentTitle` the album, `duration` is in
milliseconds, `userRating` is `None` when the user never rated the track,
`file` is `None` for a streaming-only (TIDAL) item. -/
structure PlexTrack where
  title : String
  grandparentTitle : String
  parentTitle : String
  duration : Int
  key : String
  audioCodec : String
  addedAt : String
  viewCount : Int
  userRating : Option ℚ
  file : Option String
deriving Repr, DecidableEq

/-- `GDPlexTrack` (= `JHSTrack`): the wrapped track record.
`userRatingCache` is the private `_user_rating` attribute (initially `None`),
`hash_val` the digest computed at construction. -/
structure GDPlexTrack where
  track : PlexTrack
  flagged_for_deletion : Bool
  title : String
  artist : String
  album : String
  duration : Int
  key : String
  audio_codec : String
  added_at : String
  userRatingCache : Option ℚ
  play_count : String
  filepath : String
  hash_val : String
deriving Repr, DecidableEq

/-- `GDPlexTrack.__init__`: snapshots the metadata, substitutes the sentinel
"TIDAL" for a missing file path, and computes the digest by the f-string
`f"{title}{artist}{album}{duration}"`, i.e. plain string concatenation. -/
def mkGDPlexTrack (track : PlexTrack) : GDPlexTrack :=
  { track := track
    flagged_for_deletion := false
    title := track.title
    artist := track.grandparentTitle
    album := track.parentTitle
    duration := track.duration
    key := track.key
    audio_codec := track.audioCodec
    added_at := track.addedAt
    userRatingCache := none
    play_count := toString track.viewCount
    filepath :=
      match track.file with
      | none => "TIDAL"
      | some f => f.trim
    hash_val := track.title ++ track.grandparentTitle ++ track.parentTitle
      ++ toString track.duration }

/-- Python truthiness of the `Optional[float]` cache field, as tested by
`if self._user_rating:` — `None` and `0.0` are falsy, everything else truthy. -/
def ratingCacheTruthy : Option ℚ → Bool
  | none => false
  | some v => v != 0

/-- `GDPlexTrack.user_rating` property.  Returns the rating, the updated
record (the property mutates the `_user_rating` cache), and whether this call
read `self.track.userRating` (the external lookup the docstring says is
cached).  The guard is the truthiness test `if self._user_rating:`, so a
cached `0.0` does NOT short-circuit. -/
def user_rating (t : GDPlexTrack) : ℚ × GDPlexTrack × Bool :=
  if ratingCacheTruthy t.userRatingCache then
    (t.userRatingCache.getD 0, t, false)
  else
    match t.track.userRating with
    | some v => (v, { t with userRatingCache := some v }, true)
    | none => (0, { t with userRatingCache := some 0 }, true)

/-- The star string built by the loop `for _ in range(rating): stars += "⭑"`. -/
def starGlyphs : Nat → String
  | 0 => ""
  | n + 1 => starGlyphs n ++ "⭑"

/-- `GDPlexTrack.star_rating` property.  The source initializes
`stars = "Unrated"` and overwrites it under `if self.user_rating is not None:`;
`user_rating` is a property that always returns a float, so the scrutinee is
always `some` and the "Unrated" branch is unreachable.  The property reads
`self.user_rating` twice (once for the None test, once for the star count),
each a separate property call threading the cache state.  Star count is
`int(self.user_rating // 2)` fed to `range`, i.e. `Int.toNat` of the floor. -/
def star_rating (t : GDPlexTrack) : String × GDPlexTrack :=
  let r1 := user_rating t
  match (some r1.1 : Option ℚ) with
  | none => ("Unrated", r1.2.1)
  | some _ =>
    let r2 := user_rating r1.2.1
    (starGlyphs (Int.toNat ⌊r2.1 / 2⌋), r2.2.1)

/-- `GDDuplicateSet` (= `JHSDuplicateSet`): the member list plus the
representative fields snapshotted from the first member at construction. -/
structure GDDuplicateSet where
  duplicate_tracks : List GDPlexTrack
  title : String
  artist : String
  album : String
  duration : Int
  duplicate_count : Nat
deriving Repr, DecidableEq

/-- `GDDuplicateSet.__init__`: stores the list and snapshots
`title`, `artist`, `album`, `duration` from `duplicate_tracks[0]` and
`duplicate_count` from `len(duplicate_tracks)`.  On an empty list the
subscript `duplicate_tracks[0]` raises `IndexError`, modelled as `none`. -/
def mkGDDuplicateSet : List GDPlexTrack → Option GDDuplicateSet
  | [] => none
  | t0 :: rest =>
    some { duplicate_tracks := t0 :: rest
           title := t0.title
           artist := t0.artist
           album := t0.album
           duration := t0.duration
           duplicate_count := (t0 :: rest).length }

/-- CPython list subscript semantics for an `int` index: a negative index
counts from the end (`xs[-1]` is the last element); an index out of
`[-len, len)` raises `IndexError` (`none`). -/
def pyListIndex (n : Nat) (i : Int) : Option Nat :=
  let j := if i < 0 then i + n else i
  if 0 ≤ j ∧ j < n then some j.toNat else none

/-- Replace the element at position `j` by `f` of itself (in-place update of
`xs[j]`); out-of-range positions leave the list unchanged. -/
def modifyAt {α : Type} (f : α → α) : Nat → List α → List α
  | _, [] => []
  | 0, x :: xs => f x :: xs
  | n + 1, x :: xs => x :: modifyAt f n xs

/-- The assignment `track.flagged_for_deletion = not track.flagged_for_deletion`. -/
def flipFlag (t : GDPlexTrack) : GDPlexTrack :=
  { t with flagged_for_deletion := !t.flagged_for_deletion }

/-- `GDDuplicateSet.toggle_delete(index)`: negates
`duplicate_tracks[index].flagged_for_deletion`, with CPython subscript
semantics (`none` models the `IndexError`). -/
def toggle_delete (s : GDDuplicateSet) (index : Int) : Option GDDuplicateSet :=
  match pyListIndex s.duplicate_tracks.length index with
  | none => none
  | some j =>
    some { s with duplicate_tracks := modifyAt flipFlag j s.duplicate_tracks }

/-- `JHSDuplicateSet.clear_deletes`: sets every member flag to `False`. -/
def clear_deletes (s : GDDuplicateSet) : GDDuplicateSet :=
  { s with duplicate_tracks :=
      s.duplicate_tracks.map fun t => { t with flagged_for_deletion := false } }

/-- `GDDuplicateSet.has_track_to_delete`: true iff some member is flagged. -/
def has_track_to_delete (s : GDDuplicateSet) : Bool :=
  s.duplicate_tracks.any fun t => t.flagged_for_deletion

/-- `GDDuplicateSet.all_tracks_selected`: true iff every member is flagged. -/
def all_tracks_selected (s : GDDuplicateSet) : Bool :=
  s.duplicate_tracks.all fun t => t.flagged_for_deletion

/-- `GDDuplicateSet.flagged_delete_plex_tracks`: the raw `track` objects of
the flagged members, in member order. -/
def flagged_delete_plex_tracks (s : GDDuplicateSet) : List PlexTrack :=
  (s.duplicate_tracks.filter fun t => t.flagged_for_deletion).map fun t => t.track

/-- `GDDuplicateSet.flagged_delete_gd_plex_tracks`
(= `JHSDuplicateSet.flagged_delete_jhs_tracks`): the flagged members, in
member order. -/
def flagged_delete_gd_plex_tracks (s : GDDuplicateSet) : List GDPlexTrack :=
  s.duplicate_tracks.filter fun t => t.flagged_for_deletion

/-- `GDDuplicateSet._play_counts_conflict`: compares every member's
`play_count` string against the first member's.  `duplicate_tracks[0]` on an
empty list raises (`none`). -/
def play_counts_conflict (s : GDDuplicateSet) : Option Bool :=
  match s.duplicate_tracks with
  | [] => none
  | t0 :: rest => some ((t0 :: rest).any fun t => t0.play_count != t.play_count)

/-- The loop body of `_ratings_conflict`: reads `track.user_rating` on every
member (threading the rating-cache mutations), comparing against the base. -/
def ratingsScan (base : ℚ) : List GDPlexTrack → Bool × List GDPlexTrack
  | [] => (false, [])
  | t :: ts =>
    let r := user_rating t
    let rest := ratingsScan base ts
    ((base != r.1) || rest.1, r.2.1 :: rest.2)

/-- `GDDuplicateSet._ratings_conflict`: reads the base rating from
`duplicate_tracks[0]` (mutating its cache), then compares every member's
`user_rating` against it.  Returns the flag and the set with the updated
member caches; `none` models the `IndexError` on an empty member list. -/
def ratings_conflict (s : GDDuplicateSet) : Option (Bool × GDDuplicateSet) :=
  match s.duplicate_tracks with
  | [] => none
  | t0 :: rest =>
    let b := user_rating t0
    let scan := ratingsScan b.1 (b.2.1 :: rest)
    some (scan.1, { s with duplicate_tracks := scan.2 })

/-- `GDDuplicateSet.has_conflicting_metadata`:
`self._play_counts_conflict() or self._ratings_conflict()` — short-circuit,
so the rating caches are only touched when the play counts agree. -/
def has_conflicting_metadata (s : GDDuplicateSet) : Option (Bool × GDDuplicateSet) :=
  match play_counts_conflict s with
  | none => none
  | some true => some (true, s)
  | some false => ratings_conflict s

/-- One step of the dict accumulation in `duplicate_finder`:
`if hash not in unique_tracks: unique_tracks[hash] = []` followed by
`unique_tracks[hash].append(track)`.  The insertion-ordered `dict` is
modelled as an association list with distinct keys in first-seen order. -/
def insertGroup : List (String × List GDPlexTrack) → String → GDPlexTrack →
    List (String × List GDPlexTrack)
  | [], k, t => [(k, [t])]
  | (k0, g) :: rest, k, t =>
    if k0 = k then (k0, g ++ [t]) :: rest
    else (k0, g) :: insertGroup rest k t

/-- Phase 1 of `duplicate_finder`: the `for track in all_tracks` loop, which
wraps each raw track in a `JHSTrack` and files it under its digest. -/
def groupTracks (m : List (String × List GDPlexTrack)) :
    List PlexTrack → List (String × List GDPlexTrack)
  | [] => m
  | tr :: trs =>
    let j := mkGDPlexTrack tr
    groupTracks (insertGroup m j.hash_val j) trs

/-- `duplicate_finder`: groups the library's tracks by digest, then emits one
`JHSDuplicateSet` per digest with more than one member, in dict (first-seen)
order, together with the total track count. -/
def duplicate_finder (all_tracks : List PlexTrack) : List GDDuplicateSet × Nat :=
  let m := groupTracks [] all_tracks
  (m.filterMap fun p => if 1 < p.2.length then mkGDDuplicateSet p.2 else none,
   all_tracks.length)

/-- The two side-effecting calls the executor makes against the Plex server:
`track.delete()` and `music_library.createPlaylist(title, items)` (items
recorded by their opaque keys). -/
inductive PlexAction where
  | deleteTrack (key : String)
  | createPlaylist (title : String) (keys : List String)
deriving Repr, DecidableEq

def DEFAULT_DUPLICATE_PLAYLIST_NAME : String := "GoshDarned Duplicates"

/-- The `for jhs_track in delete_tracks: jhs_track.track.delete()` loop.
`ok k` tells whether the server call for key `k` succeeds; a raised exception
propagates, so the loop stops at the first failing call.  Returns the calls
attempted (in order, the failing one included) and whether the loop
finished. -/
def runDeletes (ok : String → Bool) : List GDPlexTrack → List PlexAction × Bool
  | [] => ([], true)
  | t :: ts =>
    if ok t.key then
      let r := runDeletes ok ts
      (PlexAction.deleteTrack t.key :: r.1, r.2)
    else ([PlexAction.deleteTrack t.key], false)

/-- `delete_duplicates`: concatenates each set's flagged members
(`delete_tracks += duplicate_set.flagged_delete_jhs_tracks`), then deletes
them one by one. -/
def delete_duplicates (ok : String → Bool) (duplicate_sets : List GDDuplicateSet) :
    List PlexAction × Bool :=
  let delete_tracks :=
    duplicate_sets.foldl (fun acc s => acc ++ flagged_delete_gd_plex_tracks s) []
  runDeletes ok delete_tracks

/-- `add_duplicates_to_playlist`: concatenates each set's flagged raw tracks
(`delete_tracks += duplicate_set.flagged_delete_plex_tracks()`) and makes the
single `createPlaylist` call with the fixed playlist name and that list. -/
def add_duplicates_to_playlist (duplicate_sets : List GDDuplicateSet) :
    List PlexAction :=
  let delete_tracks :=
    duplicate_sets.foldl (fun acc s => acc ++ flagged_delete_plex_tracks s) []
  [PlexAction.createPlaylist DEFAULT_DUPLICATE_PLAYLIST_NAME
    (delete_tracks.map fun t => t.key)]

/-- A validated command accepted by the `Prompt.ask` in
`choose_duplicates_to_delete`: a 1-based track number, `n`, `p`, or `d`. -/
inductive ReviewCmd where
  | next
  | previous
  | toggleTrack (trackNumber : Nat)
  | done
deriving Repr, DecidableEq

/-- The `while True` loop of `choose_duplicates_to_delete`, driven by a
finite command stream.  Each iteration first evaluates
`duplicate_sets[track_set_index - 1]` — `none` models the `IndexError` when
the 1-based cursor has moved past the end.  `n` increments the cursor
unconditionally; `p` decrements only when `track_set_index > 1`; a track
number (which `Prompt.ask` only accepts between 1 and the member count)
toggles on the current set; `d` breaks out of the loop.  An exhausted stream
leaves the loop blocked at the prompt; the state so far is returned. -/
def chooseRun : List ReviewCmd → List GDDuplicateSet → Nat →
    Option (List GDDuplicateSet × Nat)
  | cmds, duplicate_sets, track_set_index =>
    match duplicate_sets.get? (track_set_index - 1) with
    | none => none
    | some track_set =>
      match cmds with
      | [] => some (duplicate_sets, track_set_index)
      | ReviewCmd.done :: _ => some (duplicate_sets, track_set_index)
      | ReviewCmd.previous :: cs =>
        if 1 < track_set_index then chooseRun cs duplicate_sets (track_set_index - 1)
        else chooseRun cs duplicate_sets track_set_index
      | ReviewCmd.next :: cs => chooseRun cs duplicate_sets (track_set_index + 1)
      | ReviewCmd.toggleTrack n :: cs =>
        if 1 ≤ n ∧ n ≤ track_set.duplicate_tracks.length then
          match toggle_delete track_set ((n : Int) - 1) with
          | none => none
          | some ts =>
            chooseRun cs (modifyAt (fun _ => ts) (track_set_index - 1) duplicate_sets)
              track_set_index
        else chooseRun cs duplicate_sets track_set_index

/-- `choose_duplicates_to_delete` enters the loop with `track_set_index = 1`. -/
def choose_duplicates_to_delete (duplicate_sets : List GDDuplicateSet)
    (cmds : List ReviewCmd) : Option (List GDDuplicateSet × Nat) :=
  chooseRun cmds duplicate_sets 1

/-! ### Concrete fixtures

Raw tracks used to evaluate the embedded code on particular inputs.  They use
`file := none` (a streaming item) and otherwise arbitrary metadata. -/

def rawAB : PlexTrack :=
  { title := "AB"
    grandparentTitle := "C"
    parentTitle := "Greatest Hits"
    duration := 200000
    key := "/library/metadata/101"
    audioCodec := "flac"
    addedAt := "2024-01-01 10:00:00"
    viewCount := 3
    userRating := none
    file := none }

/-- Same album and duration as `rawAB`, but the title/artist pair
`("A", "BC")` instead of `("AB", "C")`. -/
def rawA : PlexTrack :=
  { rawAB with title := "A", grandparentTitle := "BC", key := "/library/metadata/102" }

def trackAB : GDPlexTrack := mkGDPlexTrack rawAB

def trackA : GDPlexTrack := mkGDPlexTrack rawA

/-- The duplicate set built from `[trackAB, trackA]`. -/
def setAB : GDDuplicateSet :=
  { duplicate_tracks := [trackAB, trackA]
    title := "AB"
    artist := "C"
    album := "Greatest Hits"
    duration := 200000
    duplicate_count := 2 }

/-- `setAB` with the first member's deletion flag flipped. -/
def setABflip0 : GDDuplicateSet :=
  { setAB with duplicate_tracks := [flipFlag trackAB, trackA] }

/-- `setAB` with the last member's deletion flag flipped. -/
def setABflipLast : GDDuplicateSet :=
  { setAB with duplicate_tracks := [trackAB, flipFlag trackA] }

/-- `rawAB` with a given user rating. -/
def rawRated (q : Option ℚ) : PlexTrack := { rawAB with userRating := q }

def rawR2a : PlexTrack := { rawAB with userRating := some 2, key := "/library/metadata/201" }

def rawR2b : PlexTrack := { rawAB with userRating := some 2, key := "/library/metadata/202" }

/-- Two members with equal play counts and equal (but uncached) ratings. -/
def setR2 : GDDuplicateSet :=
  { duplicate_tracks := [mkGDPlexTrack rawR2a, mkGDPlexTrack rawR2b]
    title := "AB"
    artist := "C"
    album := "Greatest Hits"
    duration := 200000
    duplicate_count := 2 }

/-- `setR2` after the rating caches have been filled by a conflict query. -/
def setR2cached : GDDuplicateSet :=
  { setR2 with duplicate_tracks :=
      [{ mkGDPlexTrack rawR2a with userRatingCache := some 2 },
       { mkGDPlexTrack rawR2b with userRatingCache := some 2 }] }

/-- A member record with its deletion flag erased; two records agreeing under
`eraseFlag` agree on every field except `flagged_for_deletion`. -/
def eraseFlag (t : GDPlexTrack) : GDPlexTrack :=
  { t with flagged_for_deletion := false }

/-- A member record with its private rating cache erased; two records
agreeing under `eraseCache` agree on every field except `userRatingCache`. -/
def eraseCache (t : GDPlexTrack) : GDPlexTrack :=
  { t with userRatingCache := none }

/-- The set `b` differs from `a` at most in the members' deletion flags: the
snapshotted representative fields, the member count, the member order and
every per-member field other than `flagged_for_deletion` coincide. -/
def FramePreservedExceptFlags (a b : GDDuplicateSet) : Prop :=
  b.title = a.title ∧ b.artist = a.artist ∧ b.album = a.album ∧
  b.duration = a.duration ∧ b.duplicate_count = a.duplicate_count ∧
  b.duplicate_tracks.map eraseFlag = a.duplicate_tracks.map eraseFlag

/-- The set `b` differs from `a` at most in the members' private rating
caches; in particular the deletion flags, member order and snapshot fields
coincide. -/
def FramePreservedExceptCaches (a b : GDDuplicateSet) : Prop :=
  b.title = a.title ∧ b.artist = a.artist ∧ b.album = a.album ∧
  b.duration = a.duration ∧ b.duplicate_count = a.duplicate_count ∧
  b.duplicate_tracks.map eraseCache = a.duplicate_tracks.map eraseCache

/-- The ordered concatenation, across all duplicate sets, of the flagged
members (the list the Delete strategy should act on). -/
def flaggedAcross (sets : List GDDuplicateSet) : List GDPlexTrack :=
  (sets.map flagged_delete_gd_plex_tracks).flatten

/-- The ordered concatenation, across all duplicate sets, of the flagged
members' external ids (the list the Archive strategy should collect). -/
def flaggedKeysAcross (sets : List GDDuplicateSet) : List String :=
  (sets.map fun s => (flagged_delete_plex_tracks s).map fun t => t.key).flatten

/-- Specification-side view of grouping: the wrapped records of the input
whose digest is `k`, in input order. -/
def tracksWithDigest (all_tracks : List PlexTrack) (k : String) : List GDPlexTrack :=
  (all_tracks.map mkGDPlexTrack).filter fun t => t.hash_val == k

/-- Specification-side view of grouping: the distinct digests of the input,
in the order they are first seen, skipping those already in `seen`. -/
def firstSeenDigests (seen : List String) : List PlexTrack → List String
  | [] => []
  | tr :: trs =>
    if (mkGDPlexTrack tr).hash_val ∈ seen then firstSeenDigests seen trs
    else (mkGDPlexTrack tr).hash_val ::
      firstSeenDigests (seen ++ [(mkGDPlexTrack tr).hash_val]) trs

/-! ## Theorems -/

theorem starGlyphs_length (n : Nat) : (starGlyphs n).length = n := by
  induction n with
  | zero => rfl
  | succ n ih =>
    simp [starGlyphs, String.length_append, ih]
    decide

theorem starGlyphs_ne_unrated (n : Nat) : starGlyphs n ≠ "Unrated" := by
  intro h
  have hn : n = 7 := by
    have := starGlyphs_length n
    rw [h] at this
    simpa using this.symm
  subst hn
  exact absurd h (by decide)

theorem star_rating_eq_glyphs (t : GDPlexTrack) :
    (star_rating t).1 =
      starGlyphs (Int.toNat ⌊(user_rating (user_rating t).2.1).1 / 2⌋) := rfl

/-- Claim C1 (status: code bug).  The digest is the naive string
concatenation `f"{title}{artist}{album}{duration}"`, not a structured
composite key: the records `title="AB", artist="C"` and
`title="A", artist="BC"` (same album, same duration) receive the same
digest, and `duplicate_finder` puts the two distinct songs into one
`DuplicateSet`.  The claim says they must never be grouped. -/
theorem digest_concatenation_collides :
    rawAB.title ≠ rawA.title ∧ rawAB.grandparentTitle ≠ rawA.grandparentTitle ∧
    (mkGDPlexTrack rawAB).hash_val = (mkGDPlexTrack rawA).hash_val ∧
    ((duplicate_finder [rawAB, rawA]).1.map fun s =>
        s.duplicate_tracks.map fun t => t.key) =
      [["/library/metadata/101", "/library/metadata/102"]] := by
  refine ⟨by decide, by decide, by decide, by decide⟩

/-- Claim C2 (status: code bug).  `choose_duplicates_to_delete` clamps
`Previous` at the lower boundary, but `Next` increments the 1-based cursor
unconditionally: with a single duplicate set, one `Next` moves the cursor to
2 and the next loop iteration raises `IndexError` dereferencing
`duplicate_sets[1]` (modelled as `none`), instead of clamping at
`min(cursor + 1, N) = 1` as the claim requires. -/
theorem next_past_last_set_crashes :
    choose_duplicates_to_delete [setAB] [ReviewCmd.next] = none ∧
    choose_duplicates_to_delete [setAB] [ReviewCmd.previous] = some ([setAB], 1) := by
  refine ⟨by decide, by decide⟩

/-- Claim C3, counterexample.  A track whose underlying `userRating` is
absent (`None`) renders as the empty string, not as `"Unrated"`: the
`user_rating` property normalizes the absent value to `0.0` before
`star_rating` tests `is not None`, so the `"Unrated"` branch never fires. -/
theorem star_rating_absent_not_unrated :
    rawAB.userRating = none ∧
    (star_rating (mkGDPlexTrack rawAB)).1 = "" ∧
    ("" : String) ≠ "Unrated" := by
  refine ⟨rfl, ?_, by decide⟩
  show starGlyphs (Int.toNat ⌊(0 : ℚ) / 2⌋) = ""
  norm_num
  rfl

/-- Claim C4, counterexample.  `toggle_delete` uses a plain CPython list
subscript, so the index `-1` — outside `[0, memberCount)` — does not fail:
it is redirected to the last member, whose flag it flips. -/
theorem toggle_delete_negative_index_accepted :
    toggle_delete setAB (-1) = some setABflipLast ∧ ¬(0 ≤ (-1 : Int)) := by
  refine ⟨by decide, by decide⟩

/-- Claim C8 (status: code bug).  The memoization guard is the truthiness
test `if self._user_rating:`, and the absent rating is normalized to the
falsy `0.0`; on a track with no underlying rating the external lookup
therefore runs again on every access instead of at most once.  The lookup is
lazy (the cache is empty at construction) and the absent value is normalized
to `0.0`, but the second access performs a second lookup. -/
theorem rating_lookup_not_cached_for_absent :
    (mkGDPlexTrack rawAB).userRatingCache = none ∧
    (user_rating (mkGDPlexTrack rawAB)).1 = 0 ∧
    (user_rating (mkGDPlexTrack rawAB)).2.2 = true ∧
    (user_rating (user_rating (mkGDPlexTrack rawAB)).2.1).2.2 = true := by
  refine ⟨rfl, rfl, rfl, rfl⟩

/-- Claim C9, counterexample.  With equal play counts and equal-but-uncached
ratings, `has_conflicting_metadata` reports no conflict but fills the
members' private `_user_rating` caches: a per-member field other than
`flagged_for_deletion` changes after construction. -/
theorem conflict_query_mutates_rating_cache :
    has_conflicting_metadata setR2 = some (false, setR2cached) ∧
    setR2cached ≠ setR2 := by
  refine ⟨by decide, by decide⟩

/-- Claim C10: the `DuplicateSet` constructor enforces no minimum size — any
non-empty member list (a singleton included) is accepted, with `title`,
`artist`, `album`, `duration` snapshotted from the first member and
`duplicate_count` set to the list length; the empty list fails with the
out-of-range access `duplicate_tracks[0]`. -/
theorem mk_duplicate_set_unchecked (tracks : List GDPlexTrack) :
    (tracks = [] → mkGDDuplicateSet tracks = none) ∧
    (∀ t0 rest, tracks = t0 :: rest →
      mkGDDuplicateSet tracks =
        some { duplicate_tracks := tracks
               title := t0.title
               artist := t0.artist
               album := t0.album
               duration := t0.duration
               duplicate_count := tracks.length }) := by
  constructor
  · intro h; subst h; rfl
  · intro t0 rest h; subst h; rfl

/-- Witness for `mk_duplicate_set_unchecked` at the singleton `[trackAB]`. -/
theorem mk_duplicate_set_unchecked_witness :
    mkGDDuplicateSet [trackAB] =
      some { duplicate_tracks := [trackAB]
             title := trackAB.title
             artist := trackAB.artist
             album := trackAB.album
             duration := trackAB.duration
             duplicate_count := 1 } :=
  (mk_duplicate_set_unchecked [trackAB]).2 trackAB [] rfl

/-- Claim C3, amended.  The star-rating helper never produces `"Unrated"`
(that branch is unreachable because `user_rating` always returns a float):
an absent rating is normalized to `0.0` and renders as the empty string, and
a present rating `r` renders as `floor(r / 2)` copies of the star glyph —
`0.0 → ""`, `1.0 → ""`, `2.0 → "⭑"`, `3.0 → "⭑"`, `4.0 → "⭑⭑"`,
`10.0 → "⭑⭑⭑⭑⭑"` (odd ratings round down). -/
theorem star_rating_display (t : GDPlexTrack) :
    (star_rating t).1 ≠ "Unrated" ∧
    (star_rating t).1 =
      starGlyphs (Int.toNat ⌊(user_rating (user_rating t).2.1).1 / 2⌋) ∧
    (star_rating (mkGDPlexTrack (rawRated none))).1 = "" ∧
    (star_rating (mkGDPlexTrack (rawRated (some 0)))).1 = "" ∧
    (star_rating (mkGDPlexTrack (rawRated (some 1)))).1 = "" ∧
    (star_rating (mkGDPlexTrack (rawRated (some 2)))).1 = "⭑" ∧
    (star_rating (mkGDPlexTrack (rawRated (some 3)))).1 = "⭑" ∧
    (star_rating (mkGDPlexTrack (rawRated (some 4)))).1 = "⭑⭑" ∧
    (star_rating (mkGDPlexTrack (rawRated (some 10)))).1 = "⭑⭑⭑⭑⭑" := by
  refine ⟨?_, rfl, ?_, ?_, ?_, ?_, ?_, ?_, ?_⟩
  · rw [star_rating_eq_glyphs]
    exact starGlyphs_ne_unrated _
  · show starGlyphs (Int.toNat ⌊(0 : ℚ) / 2⌋) = ""
    norm_num; rfl
  · show starGlyphs (Int.toNat ⌊(0 : ℚ) / 2⌋) = ""
    norm_num; rfl
  · show starGlyphs (Int.toNat ⌊(1 : ℚ) / 2⌋) = ""
    norm_num; rfl
  · show starGlyphs (Int.toNat ⌊(2 : ℚ) / 2⌋) = "⭑"
    norm_num; rfl
  · show starGlyphs (Int.toNat ⌊(3 : ℚ) / 2⌋) = "⭑"
    norm_num; rfl
  · show starGlyphs (Int.toNat ⌊(4 : ℚ) / 2⌋) = "⭑⭑"
    norm_num; rfl
  · show starGlyphs (Int.toNat ⌊(10 : ℚ) / 2⌋) = "⭑⭑⭑⭑⭑"
    norm_num; rfl

theorem pyListIndex_eq_none_iff (n : Nat) (i : Int) :
    pyListIndex n i = none ↔ i < -(n : Int) ∨ (n : Int) ≤ i := by
  unfold pyListIndex
  by_cases h1 : i < 0 <;> simp only [h1, if_true, if_false, reduceIte] <;>
    split_ifs with h2 <;> simp <;> omega

theorem pyListIndex_eq_some (n : Nat) (i : Int) (j : Nat)
    (h : pyListIndex n i = some j) :
    (if i < 0 then i + n else i) = (j : Int) ∧ j < n := by
  unfold pyListIndex at h
  by_cases h1 : i < 0 <;> simp only [h1, if_true, if_false, reduceIte] at h <;>
    split_ifs at h with h2 <;> injection h with h3 <;> omega

theorem modifyAt_length {α : Type} (f : α → α) (j : Nat) (l : List α) :
    (modifyAt f j l).length = l.length := by
  induction l generalizing j with
  | nil => cases j <;> rfl
  | cons x xs ih => cases j <;> simp [modifyAt, ih]

theorem modifyAt_get? {α : Type} (f : α → α) (j k : Nat) (l : List α) :
    (modifyAt f j l).get? k = if k = j then (l.get? k).map f else l.get? k := by
  induction l generalizing j k with
  | nil => simp [modifyAt]
  | cons x xs ih =>
    cases j with
    | zero =>
      cases k with
      | zero => simp [modifyAt]
      | succ k => simp [modifyAt]
    | succ j =>
      cases k with
      | zero => simp [modifyAt]
      | succ k => simpa [modifyAt, Nat.succ_eq_add_one] using ih j k

theorem modifyAt_modifyAt {α : Type} (f : α → α) (hf : ∀ x, f (f x) = x)
    (j : Nat) (l : List α) : modifyAt f j (modifyAt f j l) = l := by
  induction l generalizing j with
  | nil => cases j <;> rfl
  | cons x xs ih => cases j <;> simp [modifyAt, hf, ih]

theorem flipFlag_flipFlag (t : GDPlexTrack) : flipFlag (flipFlag t) = t := by
  simp [flipFlag]

/-- Claim C4, amended.  `toggle_delete(index)` fails with the IndexOutOfRange
condition iff `index` is outside `[-memberCount, memberCount)` — CPython
subscripting accepts negative indices, redirecting `index < 0` to member
`memberCount + index` — and for an accepted index it flips exactly the
member at the resolved position, leaving every other member untouched; two
calls with the same index restore the original state. -/
theorem toggle_delete_index_semantics (s : GDDuplicateSet) (i : Int) :
    (toggle_delete s i = none ↔
      i < -(s.duplicate_tracks.length : Int) ∨ (s.duplicate_tracks.length : Int) ≤ i)
    ∧ (∀ s', toggle_delete s i = some s' →
        s'.duplicate_tracks.length = s.duplicate_tracks.length ∧
        s'.duplicate_tracks.get?
            (Int.toNat (if i < 0 then i + s.duplicate_tracks.length else i)) =
          (s.duplicate_tracks.get?
            (Int.toNat (if i < 0 then i + s.duplicate_tracks.length else i))).map flipFlag ∧
        ∀ k : Nat, k ≠ Int.toNat (if i < 0 then i + s.duplicate_tracks.length else i) →
          s'.duplicate_tracks.get? k = s.duplicate_tracks.get? k)
    ∧ (∀ s', toggle_delete s i = some s' → toggle_delete s' i = some s) := by
  refine ⟨?_, ?_, ?_⟩
  · unfold toggle_delete
    cases h : pyListIndex s.duplicate_tracks.length i <;>
      simp [← pyListIndex_eq_none_iff, h]
  · intro s' h
    unfold toggle_delete at h
    cases hp : pyListIndex s.duplicate_tracks.length i with
    | none => rw [hp] at h; exact absurd h (by simp)
    | some j =>
      rw [hp] at h
      obtain ⟨hj, hjn⟩ := pyListIndex_eq_some _ _ _ hp
      have hjt : Int.toNat (if i < 0 then i + s.duplicate_tracks.length else i) = j := by
        omega
      injection h with h
      subst h
      refine ⟨modifyAt_length _ _ _, ?_, ?_⟩
      · rw [hjt, modifyAt_get?, if_pos rfl]
      · intro k hk
        rw [hjt] at hk
        rw [modifyAt_get?, if_neg hk]
  · intro s' h
    unfold toggle_delete at h ⊢
    cases hp : pyListIndex s.duplicate_tracks.length i with
    | none => rw [hp] at h; exact absurd h (by simp)
    | some j =>
      rw [hp] at h
      injection h with h
      subst h
      have hlen : (modifyAt flipFlag j s.duplicate_tracks).length =
          s.duplicate_tracks.length := modifyAt_length _ _ _
      simp only [hlen, hp, modifyAt_modifyAt flipFlag flipFlag_flipFlag]

/-- Witness for `toggle_delete_index_semantics`: on the two-member `setAB`,
index 2 is rejected, and toggling index 0 twice restores the set. -/
theorem toggle_delete_index_semantics_witness :
    toggle_delete setAB 2 = none ∧ toggle_delete setABflip0 0 = some setAB :=
  ⟨(toggle_delete_index_semantics setAB 2).1.mpr (Or.inr (by decide)),
   (toggle_delete_index_semantics setAB 0).2.2 setABflip0 (by decide)⟩

theorem map_modifyAt_of_comp {α β : Type} (g : α → β) (f : α → α)
    (h : ∀ x, g (f x) = g x) (j : Nat) (l : List α) :
    (modifyAt f j l).map g = l.map g := by
  induction l generalizing j with
  | nil => cases j <;> rfl
  | cons x xs ih => cases j <;> simp [modifyAt, h, ih]

theorem user_rating_eraseCache (t : GDPlexTrack) :
    eraseCache (user_rating t).2.1 = eraseCache t := by
  unfold user_rating
  split
  · rfl
  · cases h : t.track.userRating <;> simp [h, eraseCache]

theorem user_rating_flag (t : GDPlexTrack) :
    (user_rating t).2.1.flagged_for_deletion = t.flagged_for_deletion := by
  unfold user_rating
  split
  · rfl
  · cases h : t.track.userRating <;> simp [h]

theorem ratingsScan_eraseCache (b : ℚ) (l : List GDPlexTrack) :
    ((ratingsScan b l).2).map eraseCache = l.map eraseCache := by
  induction l with
  | nil => rfl
  | cons t ts ih => simp [ratingsScan, user_rating_eraseCache, ih]

/-- Claim C9, amended.  The `DuplicateSet` operations preserve the member
list, its order, the snapshotted representative fields and every per-member
field other than `flagged_for_deletion` and the private `_user_rating`
cache: `toggle_delete` and `clear_deletes` change only deletion flags, while
the conflict queries (`_ratings_conflict`, and `has_conflicting_metadata`
when it reaches the rating comparison) change only the members' rating
caches — the pure queries (`has_track_to_delete`, `all_tracks_selected`,
`flagged_delete_plex_tracks`, `flagged_delete_gd_plex_tracks`,
`_play_counts_conflict`) return values without touching the set. -/
theorem duplicate_set_frame_effects :
    (∀ (s : GDDuplicateSet) (i : Int) (s' : GDDuplicateSet),
      toggle_delete s i = some s' → FramePreservedExceptFlags s s')
    ∧ (∀ s : GDDuplicateSet, FramePreservedExceptFlags s (clear_deletes s))
    ∧ (∀ (s : GDDuplicateSet) (r : Bool × GDDuplicateSet),
      ratings_conflict s = some r → FramePreservedExceptCaches s r.2)
    ∧ (∀ (s : GDDuplicateSet) (r : Bool × GDDuplicateSet),
      has_conflicting_metadata s = some r → FramePreservedExceptCaches s r.2) := by
  have hrc : ∀ (s : GDDuplicateSet) (r : Bool × GDDuplicateSet),
      ratings_conflict s = some r → FramePreservedExceptCaches s r.2 := by
    intro s r h
    unfold ratings_conflict at h
    cases htr : s.duplicate_tracks with
    | nil => rw [htr] at h; exact absurd h (by simp)
    | cons t0 rest =>
      rw [htr] at h
      injection h with h
      subst h
      refine ⟨rfl, rfl, rfl, rfl, rfl, ?_⟩
      show ((ratingsScan _ ((user_rating t0).2.1 :: rest)).2).map eraseCache
        = s.duplicate_tracks.map eraseCache
      rw [ratingsScan_eraseCache, htr]
      simp [user_rating_eraseCache]
  refine ⟨?_, ?_, hrc, ?_⟩
  · intro s i s' h
    unfold toggle_delete at h
    cases hp : pyListIndex s.duplicate_tracks.length i with
    | none => rw [hp] at h; exact absurd h (by simp)
    | some j =>
      rw [hp] at h
      injection h with h
      subst h
      exact ⟨rfl, rfl, rfl, rfl, rfl,
        map_modifyAt_of_comp eraseFlag flipFlag (fun _ => rfl) j _⟩
  · intro s
    refine ⟨rfl, rfl, rfl, rfl, rfl, ?_⟩
    show (s.duplicate_tracks.map _).map eraseFlag = s.duplicate_tracks.map eraseFlag
    rw [List.map_map]
    exact List.map_congr_left fun t _ => rfl
  · intro s r h
    unfold has_conflicting_metadata at h
    cases hp : play_counts_conflict s with
    | none => rw [hp] at h; exact absurd h (by simp)
    | some b =>
      rw [hp] at h
      cases b with
      | true =>
        injection h with h
        subst h
        exact ⟨rfl, rfl, rfl, rfl, rfl, rfl⟩
      | false => exact hrc s r h

/-- Witness for `duplicate_set_frame_effects`: toggling member 0 of `setAB`
preserves everything but that flag, and the conflict query on `setR2`
preserves everything but the rating caches. -/
theorem duplicate_set_frame_effects_witness :
    FramePreservedExceptFlags setAB setABflip0 ∧
    FramePreservedExceptCaches setR2 setR2cached :=
  ⟨duplicate_set_frame_effects.1 setAB 0 setABflip0 (by decide),
   duplicate_set_frame_effects.2.2.2 setR2 (false, setR2cached) (by decide)⟩

theorem foldl_append_eq_flatten {α β : Type} (f : α → List β) (sets : List α)
    (acc : List β) :
    sets.foldl (fun a s => a ++ f s) acc = acc ++ (sets.map f).flatten := by
  induction sets generalizing acc with
  | nil => simp
  | cons s ss ih => simp [ih]

theorem runDeletes_eq (ok : String → Bool) (l : List GDPlexTrack) :
    runDeletes ok l =
      if (l.takeWhile fun t => ok t.key).length = l.length
      then (l.map fun t => PlexAction.deleteTrack t.key, true)
      else ((l.take ((l.takeWhile fun t => ok t.key).length + 1)).map
              fun t => PlexAction.deleteTrack t.key, false) := by
  induction l with
  | nil => simp [runDeletes]
  | cons t ts ih =>
    simp only [runDeletes, List.takeWhile_cons]
    by_cases h : ok t.key
    · simp only [h, if_true, ih]
      by_cases h2 : (ts.takeWhile fun t => ok t.key).length = ts.length
      · simp [h2]
      · have h3 : ¬((ts.takeWhile fun t => ok t.key).length + 1 = ts.length + 1) := by
          omega
        simp [h2, h3, List.take_succ_cons]
    · have h3 : ¬((0 : Nat) = ts.length + 1) := by omega
      simp [h, h3]

/-- Claim C6: the Delete strategy acts only on flagged records and issues the
delete calls sequentially in traversal order, fail-fast.  When every call
succeeds, exactly one `delete` per flagged record is issued, in order; when
the first failure occurs after `p` successes, exactly `p + 1` calls are
attempted (the failing one included), the remaining flagged records are
never attempted, and the loop reports the failure. -/
theorem delete_strategy_fail_fast (ok : String → Bool) (sets : List GDDuplicateSet) :
    (∀ t ∈ flaggedAcross sets, t.flagged_for_deletion = true)
    ∧ delete_duplicates ok sets =
        (if ((flaggedAcross sets).takeWhile fun t => ok t.key).length
            = (flaggedAcross sets).length
         then ((flaggedAcross sets).map fun t => PlexAction.deleteTrack t.key, true)
         else (((flaggedAcross sets).take
                  (((flaggedAcross sets).takeWhile fun t => ok t.key).length + 1)).map
                 fun t => PlexAction.deleteTrack t.key, false)) := by
  constructor
  · intro t ht
    rw [flaggedAcross, List.mem_flatten] at ht
    obtain ⟨l, hl, htl⟩ := ht
    rw [List.mem_map] at hl
    obtain ⟨s, _, rfl⟩ := hl
    exact List.of_mem_filter htl
  · unfold delete_duplicates
    rw [foldl_append_eq_flatten, List.nil_append, runDeletes_eq]
    rfl

/-- Claim C7: the Archive strategy makes exactly one collection-creation
call, whose id list is exactly the concatenation of the flagged members of
every set in traversal order; every id in it belongs to a flagged member,
and no delete call is made (the catalog records are untouched). -/
theorem archive_strategy_single_call (sets : List GDDuplicateSet) :
    add_duplicates_to_playlist sets =
      [PlexAction.createPlaylist DEFAULT_DUPLICATE_PLAYLIST_NAME (flaggedKeysAcross sets)]
    ∧ (∀ a ∈ add_duplicates_to_playlist sets, ∀ k, a ≠ PlexAction.deleteTrack k)
    ∧ ∀ kk ∈ flaggedKeysAcross sets,
        ∃ s ∈ sets, ∃ t ∈ s.duplicate_tracks,
          t.flagged_for_deletion = true ∧ t.track.key = kk := by
  have hmain : add_duplicates_to_playlist sets =
      [PlexAction.createPlaylist DEFAULT_DUPLICATE_PLAYLIST_NAME (flaggedKeysAcross sets)] := by
    unfold add_duplicates_to_playlist
    rw [foldl_append_eq_flatten, List.nil_append]
    show [PlexAction.createPlaylist DEFAULT_DUPLICATE_PLAYLIST_NAME
      ((List.map flagged_delete_plex_tracks sets).flatten.map fun t => t.key)] = _
    rw [List.map_flatten, List.map_map]
    rfl
  refine ⟨hmain, ?_, ?_⟩
  · intro a ha k
    rw [hmain, List.mem_singleton] at ha
    subst ha
    simp
  · intro kk hkk
    rw [flaggedKeysAcross, List.mem_flatten] at hkk
    obtain ⟨l, hl, hkl⟩ := hkk
    rw [List.mem_map] at hl
    obtain ⟨s, hs, rfl⟩ := hl
    rw [List.mem_map] at hkl
    obtain ⟨tr, htr, rfl⟩ := hkl
    rw [flagged_delete_plex_tracks, List.mem_map] at htr
    obtain ⟨t, htf, rfl⟩ := htr
    rw [List.mem_filter] at htf
    exact ⟨s, hs, t, htf.1, htf.2, rfl⟩

theorem insertGroup_not_mem (m : List (String × List GDPlexTrack)) (k : String)
    (t : GDPlexTrack) (h : k ∉ m.map Prod.fst) :
    insertGroup m k t = m ++ [(k, [t])] := by
  induction m with
  | nil => rfl
  | cons p rest ih =>
    obtain ⟨k0, g⟩ := p
    simp only [List.map_cons, List.mem_cons, not_or] at h
    show (if k0 = k then (k0, g ++ [t]) :: rest else (k0, g) :: insertGroup rest k t) = _
    rw [if_neg fun hh => h.1 hh.symm, ih h.2, List.cons_append]

theorem insertGroup_of_mem (m : List (String × List GDPlexTrack)) (k : String)
    (t : GDPlexTrack) (hnd : (m.map Prod.fst).Nodup) (h : k ∈ m.map Prod.fst) :
    insertGroup m k t = m.map fun p => if p.1 = k then (p.1, p.2 ++ [t]) else p := by
  induction m with
  | nil => simp at h
  | cons p rest ih =>
    obtain ⟨k0, g⟩ := p
    simp only [List.map_cons, List.nodup_cons] at hnd
    show (if k0 = k then (k0, g ++ [t]) :: rest else (k0, g) :: insertGroup rest k t) = _
    by_cases hk : k0 = k
    · subst hk
      rw [if_pos rfl]
      simp only [List.map_cons, if_pos rfl]
      congr 1
      have hrest : ∀ p ∈ rest, (if p.1 = k0 then (p.1, p.2 ++ [t]) else p) = p := by
        intro p hp
        rw [if_neg]
        intro hh
        exact hnd.1 (hh ▸ List.mem_map.mpr ⟨p, hp, rfl⟩)
      have hmap : rest.map (fun p => if p.1 = k0 then (p.1, p.2 ++ [t]) else p) = rest :=
        (List.map_congr_left hrest).trans (List.map_id rest)
      exact hmap.symm
    · rw [if_neg hk]
      simp only [List.map_cons, List.mem_cons] at h
      have h2 : k ∈ rest.map Prod.fst := h.resolve_left fun hh => hk hh.symm
      rw [ih hnd.2 h2]
      simp only [List.map_cons]
      rw [if_neg hk]

theorem map_fst_update (m : List (String × List GDPlexTrack)) (k : String)
    (t : GDPlexTrack) :
    ((m.map fun p => if p.1 = k then (p.1, p.2 ++ [t]) else p).map Prod.fst)
      = m.map Prod.fst := by
  rw [List.map_map]
  refine List.map_congr_left fun p _ => ?_
  simp only [Function.comp]
  split <;> rfl

theorem firstSeenDigests_not_mem (trs : List PlexTrack) :
    ∀ (seen : List String) (k : String), k ∈ firstSeenDigests seen trs → k ∉ seen := by
  induction trs with
  | nil =>
    intro seen k h
    simp [firstSeenDigests] at h
  | cons tr trs ih =>
    intro seen k h
    rw [firstSeenDigests] at h
    by_cases hm : (mkGDPlexTrack tr).hash_val ∈ seen
    · rw [if_pos hm] at h
      exact ih seen k h
    · rw [if_neg hm] at h
      rcases List.mem_cons.mp h with h1 | h1
      · subst h1; exact hm
      · intro hk
        exact ih _ _ h1 (List.mem_append_left _ hk)

theorem tracksWithDigest_cons (tr : PlexTrack) (trs : List PlexTrack) (c : String) :
    tracksWithDigest (tr :: trs) c =
      if (mkGDPlexTrack tr).hash_val = c
      then mkGDPlexTrack tr :: tracksWithDigest trs c
      else tracksWithDigest trs c := by
  simp only [tracksWithDigest, List.map_cons, List.filter_cons, beq_iff_eq]

theorem groupTracks_spec (trs : List PlexTrack) :
    ∀ m : List (String × List GDPlexTrack), (m.map Prod.fst).Nodup →
      groupTracks m trs =
        (m.map fun p => (p.1, p.2 ++ tracksWithDigest trs p.1))
          ++ (firstSeenDigests (m.map Prod.fst) trs).map
              fun k => (k, tracksWithDigest trs k) := by
  induction trs with
  | nil =>
    intro m hm
    show m = _
    simp [firstSeenDigests, tracksWithDigest]
  | cons tr trs ih =>
    intro m hm
    show groupTracks (insertGroup m (mkGDPlexTrack tr).hash_val (mkGDPlexTrack tr)) trs = _
    by_cases hk : (mkGDPlexTrack tr).hash_val ∈ m.map Prod.fst
    · rw [insertGroup_of_mem m _ _ hm hk]
      rw [ih _ (by rw [map_fst_update]; exact hm)]
      rw [map_fst_update]
      rw [firstSeenDigests, if_pos hk]
      congr 1
      · rw [List.map_map]
        refine List.map_congr_left fun p hp => ?_
        simp only [Function.comp]
        by_cases hp1 : p.1 = (mkGDPlexTrack tr).hash_val
        · rw [if_pos hp1, tracksWithDigest_cons, if_pos hp1.symm]
          simp
        · rw [if_neg hp1, tracksWithDigest_cons, if_neg fun hh => hp1 hh.symm]
      · refine List.map_congr_left fun c hc => ?_
        have hcnot := firstSeenDigests_not_mem trs _ _ hc
        have hne : (mkGDPlexTrack tr).hash_val ≠ c := fun hh => hcnot (hh ▸ hk)
        rw [tracksWithDigest_cons, if_neg hne]
    · rw [insertGroup_not_mem m _ _ hk]
      have hkeys : ((m ++ [((mkGDPlexTrack tr).hash_val, [mkGDPlexTrack tr])]).map Prod.fst)
          = m.map Prod.fst ++ [(mkGDPlexTrack tr).hash_val] := by
        rw [List.map_append]
        rfl
      have hnd2 :
          (((m ++ [((mkGDPlexTrack tr).hash_val, [mkGDPlexTrack tr])]).map Prod.fst)).Nodup := by
        rw [hkeys, List.nodup_append]
        refine ⟨hm, by simp, ?_⟩
        intro a ha hb
        simp only [List.mem_singleton] at hb
        subst hb
        exact hk ha
      rw [ih _ hnd2, hkeys]
      rw [firstSeenDigests, if_neg hk]
      simp only [List.map_append, List.map_cons, List.map_nil, List.append_assoc,
        List.cons_append, List.nil_append]
      congr 1
      · refine List.map_congr_left fun p hp => ?_
        have hp1 : p.1 ≠ (mkGDPlexTrack tr).hash_val := fun hh =>
          hk (hh ▸ List.mem_map.mpr ⟨p, hp, rfl⟩)
        rw [tracksWithDigest_cons, if_neg fun hh => hp1 hh.symm]
      · congr 1
        · show ((mkGDPlexTrack tr).hash_val,
            [mkGDPlexTrack tr] ++ tracksWithDigest trs (mkGDPlexTrack tr).hash_val) = _
          rw [tracksWithDigest_cons, if_pos rfl]
          rfl
        · refine List.map_congr_left fun c hc => ?_
          have hcn := firstSeenDigests_not_mem trs _ _ hc
          have hne : (mkGDPlexTrack tr).hash_val ≠ c := fun hh =>
            hcn (hh ▸ List.mem_append_right _ (by simp))
          rw [tracksWithDigest_cons, if_neg hne]

/-- Claim C5: `duplicate_finder` emits one `DuplicateSet` per digest that
accumulated at least two records, in the order the digests were first seen;
each set's members are exactly the input records carrying that digest, in
their original relative order; digests with exactly one record are silently
dropped. -/
theorem grouping_characterization (all_tracks : List PlexTrack) :
    (duplicate_finder all_tracks).1 =
      (firstSeenDigests [] all_tracks).filterMap fun k =>
        if 1 < (tracksWithDigest all_tracks k).length
        then mkGDDuplicateSet (tracksWithDigest all_tracks k) else none := by
  show (groupTracks [] all_tracks).filterMap _ = _
  rw [groupTracks_spec all_tracks [] (by simp)]
  rw [List.map_nil, List.nil_append, List.filterMap_map]
  rfl

/-- Witness for `star_rating_display` at the concrete unrated `trackAB`. -/
theorem star_rating_display_witness : (star_rating trackAB).1 ≠ "Unrated" :=
  (star_rating_display trackAB).1

/-- Witness for `grouping_characterization` at a concrete two-track input. -/
theorem grouping_characterization_witness :
    (duplicate_finder [rawAB, rawA]).1 =
      (firstSeenDigests [] [rawAB, rawA]).filterMap fun k =>
        if 1 < (tracksWithDigest [rawAB, rawA] k).length
        then mkGDDuplicateSet (tracksWithDigest [rawAB, rawA] k) else none :=
  grouping_characterization [rawAB, rawA]

/-- Witness for `delete_strategy_fail_fast`: the member collected from the
concrete `setABflip0` is indeed flagged. -/
theorem delete_strategy_fail_fast_witness :
    (flipFlag trackAB).flagged_for_deletion = true :=
  (delete_strategy_fail_fast (fun _ => true) [setABflip0]).1 (flipFlag trackAB)
    (by decide)

/-- Witness for `archive_strategy_single_call`: the id collected from the
concrete `setABflip0` belongs to a flagged member. -/
theorem archive_strategy_single_call_witness :
    ∃ s ∈ [setABflip0], ∃ t ∈ s.duplicate_tracks,
      t.flagged_for_deletion = true ∧ t.track.key = "/library/metadata/101" :=
  (archive_strategy_single_call [setABflip0]).2.2 "/library/metadata/101" (by decide)

end PlexTools
